import Mathlib

/-!
Verification of `rust-protoc-bin-vendored`.

Part 1 models the platform resolver of `protoc-bin-vendored/src/lib.rs`:
the enum `ArchCrate`, the `Error` type, `ArchCrate::detect`,
`protoc_bin_path`, `include_path_for_arch` and `include_path`.
The process environment (`env::consts::OS` / `env::consts::ARCH`) is passed
explicitly as two strings.  Filesystem paths are modelled as lists of path
components (`List String`).

Part 2 models the CI generator of `ci-gen/src/main.rs`:
`crates_list`, `steps`, `Os`, `cargo_doc_job` and `jobs`.  The directory
listing read by `crates_list` is passed explicitly as a list of entries.
-/

/-- `Error` of `protoc-bin-vendored/src/lib.rs`: carries the `os` and `arch`
strings of the unsupported platform. -/
structure Error where
  os : String
  arch : String
deriving DecidableEq, Repr

/-- The `Display` impl for `Error`:
`"protoc binary cannot be found for platform {}-{}"` with the `os` and
`arch` fields interpolated. -/
def Error.displayMessage (e : Error) : String :=
  "protoc binary cannot be found for platform " ++ e.os ++ "-" ++ e.arch

/-- The `ArchCrate` enum of `protoc-bin-vendored/src/lib.rs`. -/
inductive ArchCrate where
  | Linux_X86_32
  | Linux_X86_64
  | Linux_Aarch_64
  | Linux_Ppcle_64
  | Linux_S390_64
  | Macos_Aarch_64
  | Macos_x86_64
  | Win32
deriving DecidableEq, Repr

/-- `ArchCrate::detect`, with the environment constants `env::consts::OS`
and `env::consts::ARCH` passed as the arguments `os` and `arch`.  The match
arms are transcribed one to one, including the `("windows", _)` wildcard arm
and the fallthrough arm returning `Err(Error { os, arch })`. -/
def ArchCrate.detect (os arch : String) : Except Error ArchCrate :=
  match os, arch with
  | "linux", "x86" => .ok .Linux_X86_32
  | "linux", "x86_64" => .ok .Linux_X86_64
  | "linux", "aarch64" => .ok .Linux_Aarch_64
  | "linux", "powerpc64" => .ok .Linux_Ppcle_64
  | "linux", "s390x" => .ok .Linux_S390_64
  | "macos", "x86_64" => .ok .Macos_x86_64
  | "macos", "aarch64" => .ok .Macos_Aarch_64
  | "windows", _ => .ok .Win32
  | os, arch => .error ⟨os, arch⟩

/-- The static enumeration of supported `(os, arch)` pairs, read off the
match arms of `ArchCrate::detect` (every `windows` architecture is
supported via the wildcard arm). -/
def supportedPair (os arch : String) : Bool :=
  (os == "linux" &&
    (arch == "x86" || arch == "x86_64" || arch == "aarch64" ||
      arch == "powerpc64" || arch == "s390x")) ||
  (os == "macos" && (arch == "x86_64" || arch == "aarch64")) ||
  (os == "windows")

namespace protoc_bin_vendored_linux_riscv64

/-- `CARGO_MANIFEST_DIR` of the `protoc-bin-vendored-linux-riscv64` crate:
its directory in the repository. -/
def cargo_manifest_dir : List String := ["protoc-bin-vendored-linux-riscv64"]

/-- `include_path` of `protoc-bin-vendored-linux-riscv64/src/lib.rs`:
`cargo_manifest_dir().join("include")`. -/
def include_path : List String := cargo_manifest_dir ++ ["include"]

/-- `protoc_bin_path` of `protoc-bin-vendored-linux-riscv64/src/lib.rs`:
`cargo_manifest_dir().join("bin").join("protoc")`. -/
def protoc_bin_path : List String := cargo_manifest_dir ++ ["bin", "protoc"]

end protoc_bin_vendored_linux_riscv64

/-- Modelled from the spec: the manifest directory of each vendored
per-platform crate dispatched to by `protoc_bin_path` and
`include_path_for_arch`.  Those eight crates are part of this repository but
not under `src/`; what matters here is only that each variant has its own
directory, distinct from `protoc-bin-vendored-linux-riscv64`. -/
def archCrateDir : ArchCrate → String
  | .Linux_X86_32 => "protoc-bin-vendored-linux-x86_32"
  | .Linux_X86_64 => "protoc-bin-vendored-linux-x86_64"
  | .Linux_Aarch_64 => "protoc-bin-vendored-linux-aarch_64"
  | .Linux_Ppcle_64 => "protoc-bin-vendored-linux-ppcle_64"
  | .Linux_S390_64 => "protoc-bin-vendored-linux-s390_64"
  | .Macos_Aarch_64 => "protoc-bin-vendored-macos-aarch_64"
  | .Macos_x86_64 => "protoc-bin-vendored-macos-x86_64"
  | .Win32 => "protoc-bin-vendored-win32"

/-- Modelled from the spec: `protoc_bin_vendored_<variant>::protoc_bin_path()`
for the eight dispatched crates, which are not under `src/`.  Following the
`protoc-bin-vendored-linux-riscv64` crate (which is under `src/`), each
returns the `protoc` executable under `bin` in its own manifest directory. -/
def archCrateBinPath (c : ArchCrate) : List String :=
  [archCrateDir c, "bin", "protoc"]

/-- `include_path_for_arch` of `protoc-bin-vendored/src/lib.rs`: dispatches
on the `ArchCrate` to the matching vendored crate's `include_path()`.
Modelled from the spec: each vendored crate's `include_path()` (not under
`src/`) returns the `include` directory in its own manifest directory,
following the `protoc-bin-vendored-linux-riscv64` crate. -/
def include_path_for_arch (c : ArchCrate) : List String :=
  [archCrateDir c, "include"]

/-- `protoc_bin_path` of `protoc-bin-vendored/src/lib.rs`: detect the
platform (the `?` operator propagates the `Err`), then dispatch to the
matching vendored crate's `protoc_bin_path()`. -/
def protoc_bin_path (os arch : String) : Except Error (List String) :=
  match ArchCrate.detect os arch with
  | .error e => .error e
  | .ok c => .ok (archCrateBinPath c)

/-- `include_path` of `protoc-bin-vendored/src/lib.rs`:
`Ok(include_path_for_arch(&ArchCrate::detect()?))`. -/
def include_path (os arch : String) : Except Error (List String) :=
  match ArchCrate.detect os arch with
  | .error e => .error e
  | .ok c => .ok (include_path_for_arch c)

/-- Modelled from the spec: the fixed set of resource files every vendored
crate ships in its `include` directory (`.proto` files distributed with
protobuf, e.g. `google/protobuf/descriptor.proto`). -/
def bundledIncludeFiles : List String := ["google/protobuf/descriptor.proto"]

/-- Modelled from the spec: the contents of the `include` directory of each
vendored crate, as a map from file name to file bytes.  The spec guarantees
the include directory content is identical regardless of the platform
(checked at run time by the `arch_crates_includes_identical` test), so the
map does not depend on the variant. -/
def includeFileContents (_c : ArchCrate) (f : String) : Option String :=
  if f ∈ bundledIncludeFiles then some ("bytes-of:" ++ f) else none

def exceptIsOk {α : Type} : Except Error α → Bool
  | .ok _ => true
  | .error _ => false

def exceptErr {α : Type} : Except Error α → Option Error
  | .ok _ => none
  | .error e => some e

lemma detect_err_of_not_supported (os arch : String)
    (h : supportedPair os arch = false) :
    ArchCrate.detect os arch = .error ⟨os, arch⟩ := by
  unfold ArchCrate.detect
  split <;> simp_all [supportedPair]

lemma detect_ok_of_supported (os arch : String)
    (h : supportedPair os arch = true) :
    ∃ c, ArchCrate.detect os arch = .ok c := by
  simp only [supportedPair, Bool.or_eq_true, Bool.and_eq_true, beq_iff_eq] at h
  rcases h with
    ((⟨rfl, ((((rfl | rfl) | rfl) | rfl) | rfl)⟩ | ⟨rfl, (rfl | rfl)⟩) | rfl) <;>
    exact ⟨_, rfl⟩

/-- The `RustToolchain` enum of the `gh-actions-gen` dependency, as used by
`ci-gen/src/main.rs`: the three toolchain channels. -/
inductive RustToolchain where
  | Stable
  | Beta
  | Nightly
deriving DecidableEq, Repr

/-- Modelled from the spec: the `Display` impl of `RustToolchain` used by
`format!("{}-{}", os.name, channel)` (the channel names stable/beta/nightly). -/
def RustToolchain.displayName : RustToolchain → String
  | .Stable => "stable"
  | .Beta => "beta"
  | .Nightly => "nightly"

/-- The `Env` enum of `gh_actions_gen::ghwf` (the CI runner labels used by
`ci-gen/src/main.rs`). -/
inductive Env where
  | UbuntuLatest
  | MacosLatest
  | WindowsLatest
deriving DecidableEq, Repr

/-- Modelled from the spec: the kinds of steps produced by the
`gh_actions_gen::actions` constructors used by `ci-gen/src/main.rs`
(cache restore, source checkout, toolchain install, test execution,
documentation build) and by the two fixed check jobs. -/
inductive StepKind where
  | cargoCache
  | checkoutSources
  | rustInstallToolchain (channel : RustToolchain)
  | cargoTest (stepName args : String)
  | cargoDoc (stepName args : String)
  | rustfmtCheck
  | megaLinter
deriving DecidableEq, Repr

/-- A `gh_actions_gen::ghwf::Step`, reduced to the fields `ci-gen` reads or
writes: its kind and its optional `timeout_minutes`. -/
structure Step where
  kind : StepKind
  timeout_minutes : Option Nat := none
deriving DecidableEq, Repr

/-- `gh_actions_gen::actions::cargo_cache()`: the cache restore step. -/
def cargo_cache : Step := { kind := .cargoCache }

/-- `gh_actions_gen::actions::checkout_sources()`: the source checkout step. -/
def checkout_sources : Step := { kind := .checkoutSources }

/-- `gh_actions_gen::actions::rust_install_toolchain(channel)`: the
toolchain install step. -/
def rust_install_toolchain (channel : RustToolchain) : Step :=
  { kind := .rustInstallToolchain channel }

/-- `gh_actions_gen::actions::cargo_test(name, args)`: a test execution
step (with no timeout set by the constructor itself). -/
def cargo_test (stepName args : String) : Step :=
  { kind := .cargoTest stepName args }

/-- `gh_actions_gen::actions::cargo_doc(name, args)`: the documentation
build step. -/
def cargo_doc (stepName args : String) : Step :=
  { kind := .cargoDoc stepName args }

/-- One entry of the directory listing `fs::read_dir(".")` seen by
`crates_list`: the entry's file name and whether `<name>/Cargo.toml`
exists. -/
structure DirEntry where
  name : String
  hasCargoToml : Bool
deriving DecidableEq, Repr

/-- `crates_list` of `ci-gen/src/main.rs`, with the directory listing passed
explicitly: keep the names of the entries that contain a `Cargo.toml`, then
sort (`Vec::sort` on `String`, i.e. lexicographically).  The two `assert!`s
(that `./ci-gen` exists and that the result is non-empty) abort the process
and do not affect the returned value, so they are not part of the value
model. -/
def crates_list (entries : List DirEntry) : List String :=
  ((entries.filter (fun e => e.hasCargoToml)).map (fun e => e.name)).mergeSort
    (fun a b => a ≤ b)

/-- The `Os` struct of `ci-gen/src/main.rs`. -/
structure Os where
  name : String
  ghwf : Env
deriving DecidableEq, Repr

/-- The `LINUX` constant of `ci-gen/src/main.rs`. -/
def LINUX : Os := { name := "linux", ghwf := .UbuntuLatest }

/-- The `MACOS` constant of `ci-gen/src/main.rs`. -/
def MACOS : Os := { name := "macos", ghwf := .MacosLatest }

/-- The `WINDOWS` constant of `ci-gen/src/main.rs`. -/
def WINDOWS : Os := { name := "windows", ghwf := .WindowsLatest }

/-- The hard-coded directory name excluded by `steps` ("Not really a
crate."). -/
def archTemplateName : String := "protoc-bin-vendored-arch-template"

/-- The test step `steps` pushes for crate `c`:
`cargo_test(&format!("cargo test {}", c), &format!("--manifest-path={}/Cargo.toml", c))`
with `timeout_minutes = Some(5)`. -/
def testStepFor (c : String) : Step :=
  { cargo_test ("cargo test " ++ c) ("--manifest-path=" ++ c ++ "/Cargo.toml") with
    timeout_minutes := some 5 }

/-- `steps` of `ci-gen/src/main.rs`: the three fixed setup steps, then one
test step per discovered crate, skipping `protoc-bin-vendored-arch-template`
(the `continue`). -/
def steps (entries : List DirEntry) (_os : Os) (channel : RustToolchain) :
    List Step :=
  [cargo_cache, checkout_sources, rust_install_toolchain channel] ++
    ((crates_list entries).filter (fun c => !(c == archTemplateName))).map
      testStepFor

/-- A `gh_actions_gen::ghwf::Job`, reduced to the fields `ci-gen` sets:
id, name, runner, environment variables and steps. -/
structure Job where
  id : String
  jobName : String
  runs_on : Env
  env : List (String × String) := []
  steps : List Step := []
deriving DecidableEq, Repr

/-- `cargo_doc_job` of `ci-gen/src/main.rs`: the fixed documentation build
job (on linux, stable toolchain). -/
def cargo_doc_job : Job :=
  { id := "cargo-doc"
    jobName := "cargo doc"
    runs_on := LINUX.ghwf
    steps := [cargo_cache, checkout_sources, rust_install_toolchain .Stable,
      cargo_doc "cargo doc" ""] }

/-- Modelled from the spec: `gh_actions_gen::rustfmt::rustfmt_check_job()`,
the fixed format check job (not under `src/`); it runs a format check and
contains no test execution step for any repository unit. -/
def rustfmt_check_job : Job :=
  { id := "rustfmt-check"
    jobName := "rustfmt check"
    runs_on := LINUX.ghwf
    steps := [{ kind := .rustfmtCheck }] }

/-- Modelled from the spec: `gh_actions_gen::super_mega_linter::mega_linter_job()`,
the fixed lint check job (not under `src/`); it runs a linter and contains
no test execution step for any repository unit. -/
def mega_linter_job : Job :=
  { id := "mega-linter"
    jobName := "mega linter"
    runs_on := LINUX.ghwf
    steps := [{ kind := .megaLinter }] }

/-- The platform/channel double loop of `jobs` in `ci-gen/src/main.rs`:
for each channel in `[Stable, Beta, Nightly]` and each os in
`[LINUX, MACOS, WINDOWS]`, skip the beta channel on macos and windows
("skip some jobs because macos is expensive"), otherwise push a job with
id `"{os}-{channel}"`, `RUST_BACKTRACE=1`, running `steps(os, channel)`. -/
def matrixJobs (entries : List DirEntry) : List Job :=
  [RustToolchain.Stable, .Beta, .Nightly].flatMap fun channel =>
    [LINUX, MACOS, WINDOWS].filterMap fun os =>
      if channel = RustToolchain.Beta ∧ (os = MACOS ∨ os = WINDOWS) then
        none
      else
        some { id := os.name ++ "-" ++ channel.displayName
               jobName := os.name ++ " " ++ channel.displayName
               runs_on := os.ghwf
               env := [("RUST_BACKTRACE", "1")]
               steps := steps entries os channel }

/-- `jobs` of `ci-gen/src/main.rs`: the matrix jobs, then `cargo_doc_job()`,
`rustfmt_check_job()` and `mega_linter_job()` pushed in that order. -/
def jobs (entries : List DirEntry) : List Job :=
  matrixJobs entries ++ [cargo_doc_job, rustfmt_check_job, mega_linter_job]

/-- A sample directory listing used to instantiate theorems on concrete
inputs: two buildable crates, the excluded template directory and a
non-crate file. -/
def sampleEntries : List DirEntry :=
  [{ name := "protoc-bin-vendored", hasCargoToml := true },
   { name := "ci-gen", hasCargoToml := true },
   { name := "protoc-bin-vendored-arch-template", hasCargoToml := true },
   { name := "README.md", hasCargoToml := false }]

/-- The shape of each matrix job pushed by the double loop in `jobs`. -/
def mkMatrixJob (entries : List DirEntry) (os : Os) (channel : RustToolchain) :
    Job :=
  { id := os.name ++ "-" ++ channel.displayName
    jobName := os.name ++ " " ++ channel.displayName
    runs_on := os.ghwf
    env := [("RUST_BACKTRACE", "1")]
    steps := steps entries os channel }

lemma matrixJobs_eq (entries : List DirEntry) :
    matrixJobs entries =
      [mkMatrixJob entries LINUX .Stable,
       mkMatrixJob entries MACOS .Stable,
       mkMatrixJob entries WINDOWS .Stable,
       mkMatrixJob entries LINUX .Beta,
       mkMatrixJob entries LINUX .Nightly,
       mkMatrixJob entries MACOS .Nightly,
       mkMatrixJob entries WINDOWS .Nightly] := rfl

/-- Whether a step is the test execution step `steps` emits for crate `c`. -/
def isTestStepFor (c : String) (s : Step) : Bool :=
  s.kind ==
    StepKind.cargoTest ("cargo test " ++ c)
      ("--manifest-path=" ++ c ++ "/Cargo.toml")

lemma string_append_right_inj (p : String) {a b : String}
    (h : p ++ a = p ++ b) : a = b := by
  have h2 := congrArg String.data h
  simp only [String.data_append] at h2
  exact String.ext (List.append_cancel_left h2)

lemma isTestStepFor_testStepFor (c d : String) :
    isTestStepFor c (testStepFor d) = (d == c) := by
  by_cases hd : d = c
  · subst hd
    simp [isTestStepFor, testStepFor, cargo_test]
  · have h1 : ¬("cargo test " ++ d = "cargo test " ++ c) :=
      fun hh => hd (string_append_right_inj _ hh)
    rw [Bool.eq_iff_iff]
    simp [isTestStepFor, testStepFor, cargo_test, hd, h1]

lemma filter_beq_eq_single {l : List String} (c : String) (hn : l.Nodup)
    (hc : c ∈ l) : l.filter (fun d => d == c) = [c] := by
  induction l with
  | nil => cases hc
  | cons a t ih =>
    have hat : a ∉ t := (List.nodup_cons.mp hn).1
    rcases List.mem_cons.mp hc with rfl | hct
    · rw [List.filter_cons]
      simp only [beq_self_eq_true, if_true]
      rw [List.filter_eq_nil_iff.mpr]
      intro d hd
      simp only [beq_iff_eq]
      rintro rfl
      exact hat hd
    · have hac : (a == c) = false := by
        simp only [beq_eq_false_iff_ne, ne_eq]
        rintro rfl
        exact hat hct
      rw [List.filter_cons, hac]
      simp only [Bool.false_eq_true, if_false]
      exact ih (List.nodup_cons.mp hn).2 hct

lemma crates_list_nodup (entries : List DirEntry)
    (h : (entries.map DirEntry.name).Nodup) : (crates_list entries).Nodup := by
  unfold crates_list
  rw [(List.mergeSort_perm _ _).nodup_iff]
  have hsub :
      ((entries.filter fun e => e.hasCargoToml).map DirEntry.name).Sublist
        (entries.map DirEntry.name) :=
    (List.filter_sublist _).map _
  exact h.sublist hsub

lemma setup_steps_not_test (channel : RustToolchain) (c : String) :
    isTestStepFor c cargo_cache = false ∧
    isTestStepFor c checkout_sources = false ∧
    isTestStepFor c (rust_install_toolchain channel) = false := by
  refine ⟨?_, ?_, ?_⟩ <;>
    simp [isTestStepFor, cargo_cache, checkout_sources, rust_install_toolchain]

lemma steps_filter_testStep (entries : List DirEntry) (os : Os)
    (channel : RustToolchain) (c : String) (hn : (crates_list entries).Nodup)
    (hc : c ∈ crates_list entries) (hct : c ≠ archTemplateName) :
    (steps entries os channel).filter (isTestStepFor c) = [testStepFor c] := by
  unfold steps
  rw [List.filter_append]
  have h3 : List.filter (isTestStepFor c)
      [cargo_cache, checkout_sources, rust_install_toolchain channel] = [] := by
    simp [List.filter, (setup_steps_not_test channel c).1,
      (setup_steps_not_test channel c).2.1, (setup_steps_not_test channel c).2.2]
  rw [h3, List.nil_append, List.filter_map]
  have hcomp : (isTestStepFor c ∘ testStepFor) = fun d => d == c :=
    funext (isTestStepFor_testStepFor c)
  rw [hcomp]
  have hmem : c ∈ (crates_list entries).filter (fun d => !(d == archTemplateName)) := by
    rw [List.mem_filter]
    exact ⟨hc, by simp [hct]⟩
  rw [filter_beq_eq_single c (hn.filter _) hmem]
  rfl

/-- C1: every (os, arch) pair outside the static enumeration of supported
pairs makes platform resolution fail: `ArchCrate::detect` — and hence
`protoc_bin_path` and `include_path` — returns the error carrying the pair,
never a default platform variant. -/
theorem c1_unmatched_pair_fails_closed (os arch : String)
    (h : supportedPair os arch = false) :
    ArchCrate.detect os arch = .error ⟨os, arch⟩ ∧
    protoc_bin_path os arch = .error ⟨os, arch⟩ ∧
    include_path os arch = .error ⟨os, arch⟩ := by
  have hd := detect_err_of_not_supported os arch h
  exact ⟨hd, by rw [protoc_bin_path, hd], by rw [include_path, hd]⟩

/-- Witness for C1 at the concrete unsupported pair (freebsd, x86_64). -/
theorem c1_witness :
    supportedPair "freebsd" "x86_64" = false ∧
    (ArchCrate.detect "freebsd" "x86_64" = .error ⟨"freebsd", "x86_64"⟩ ∧
     protoc_bin_path "freebsd" "x86_64" = .error ⟨"freebsd", "x86_64"⟩ ∧
     include_path "freebsd" "x86_64" = .error ⟨"freebsd", "x86_64"⟩) :=
  ⟨by decide, c1_unmatched_pair_fails_closed "freebsd" "x86_64" (by decide)⟩

/-- C5: when resolution fails, the error carries the unsupported pair in its
`os` and `arch` fields and its display message surfaces both fields. -/
theorem c5_error_surfaces_os_and_arch (os arch : String) (e : Error)
    (h : ArchCrate.detect os arch = .error e) :
    e.os = os ∧ e.arch = arch ∧
    e.displayMessage =
      "protoc binary cannot be found for platform " ++ os ++ "-" ++ arch ∧
    (∃ p q, e.displayMessage = p ++ os ++ q) ∧
    (∃ p q, e.displayMessage = p ++ arch ++ q) := by
  have he : e = ⟨os, arch⟩ := by
    unfold ArchCrate.detect at h
    split at h <;> simp_all
  subst he
  refine ⟨rfl, rfl, rfl,
    ⟨"protoc binary cannot be found for platform ", "-" ++ arch, ?_⟩,
    ⟨"protoc binary cannot be found for platform " ++ os ++ "-", "", ?_⟩⟩ <;>
    simp [Error.displayMessage, String.append_assoc]

/-- Witness for C5 at the concrete unsupported pair (freebsd, arm). -/
theorem c5_witness :
    ArchCrate.detect "freebsd" "arm" = .error ⟨"freebsd", "arm"⟩ ∧
    ((⟨"freebsd", "arm"⟩ : Error).os = "freebsd" ∧
     (⟨"freebsd", "arm"⟩ : Error).arch = "arm" ∧
     (⟨"freebsd", "arm"⟩ : Error).displayMessage =
       "protoc binary cannot be found for platform " ++ "freebsd" ++ "-" ++
         "arm" ∧
     (∃ p q, (⟨"freebsd", "arm"⟩ : Error).displayMessage = p ++ "freebsd" ++ q) ∧
     (∃ p q, (⟨"freebsd", "arm"⟩ : Error).displayMessage = p ++ "arm" ++ q)) :=
  ⟨rfl, c5_error_surfaces_os_and_arch "freebsd" "arm" _ rfl⟩

/-- C10: for every environment, `protoc_bin_path` succeeds iff
`include_path` succeeds, both succeed exactly when `ArchCrate::detect`
matches (i.e. on the supported pairs), and on failure both return the same
error, carrying the (os, arch) pair. -/
theorem c10_bin_path_iff_include_path (os arch : String) :
    exceptIsOk (protoc_bin_path os arch) = exceptIsOk (include_path os arch) ∧
    exceptIsOk (protoc_bin_path os arch) = supportedPair os arch ∧
    exceptErr (protoc_bin_path os arch) = exceptErr (include_path os arch) ∧
    exceptErr (protoc_bin_path os arch) =
      (if supportedPair os arch then none else some ⟨os, arch⟩) := by
  cases hs : supportedPair os arch
  · have hd := detect_err_of_not_supported os arch hs
    simp [protoc_bin_path, include_path, hd, exceptIsOk, exceptErr]
  · obtain ⟨c, hd⟩ := detect_ok_of_supported os arch hs
    simp [protoc_bin_path, include_path, hd, exceptIsOk, exceptErr]

/-- C8: for every supported pair, resolution succeeds and returns a
non-empty include directory path, whose modelled contents (the fixed
bundled resource files) are identical across every platform variant. -/
theorem c8_include_dir_identical_across_variants (os arch : String)
    (h : supportedPair os arch = true) :
    ∃ c, ArchCrate.detect os arch = .ok c ∧
      include_path os arch = .ok (include_path_for_arch c) ∧
      include_path_for_arch c ≠ [] ∧
      ∀ c' : ArchCrate,
        (∀ f, includeFileContents c' f = includeFileContents c f) ∧
        includeFileContents c' "google/protobuf/descriptor.proto" ≠ none := by
  obtain ⟨c, hd⟩ := detect_ok_of_supported os arch h
  refine ⟨c, hd, by rw [include_path, hd], by cases c <;> decide, ?_⟩
  intro c'
  exact ⟨fun f => rfl, by simp [includeFileContents, bundledIncludeFiles]⟩

/-- Witness for C8 at the concrete supported pair (macos, aarch64). -/
theorem c8_witness :
    supportedPair "macos" "aarch64" = true ∧
    (∃ c, ArchCrate.detect "macos" "aarch64" = .ok c ∧
      include_path "macos" "aarch64" = .ok (include_path_for_arch c) ∧
      include_path_for_arch c ≠ [] ∧
      ∀ c' : ArchCrate,
        (∀ f, includeFileContents c' f = includeFileContents c f) ∧
        includeFileContents c' "google/protobuf/descriptor.proto" ≠ none) :=
  ⟨by decide, c8_include_dir_identical_across_variants "macos" "aarch64"
    (by decide)⟩

/-- C9: (linux, riscv64) is rejected by the resolver — `detect`,
`protoc_bin_path` and `include_path` all return the platform-not-supported
error — and no resolver success ever returns the paths of the vendored
linux-riscv64 crate, even though that crate exists and exposes them. -/
theorem c9_linux_riscv64_rejected :
    ArchCrate.detect "linux" "riscv64" = .error ⟨"linux", "riscv64"⟩ ∧
    protoc_bin_path "linux" "riscv64" = .error ⟨"linux", "riscv64"⟩ ∧
    include_path "linux" "riscv64" = .error ⟨"linux", "riscv64"⟩ ∧
    (∀ os arch p, protoc_bin_path os arch = .ok p →
      p ≠ protoc_bin_vendored_linux_riscv64.protoc_bin_path) ∧
    (∀ os arch p, include_path os arch = .ok p →
      p ≠ protoc_bin_vendored_linux_riscv64.include_path) := by
  refine ⟨rfl, rfl, rfl, ?_, ?_⟩
  · intro os arch p h
    rcases hd : ArchCrate.detect os arch with e | c
    · rw [protoc_bin_path, hd] at h
      cases h
    · rw [protoc_bin_path, hd] at h
      simp only [Except.ok.injEq] at h
      subst h
      cases c <;> decide
  · intro os arch p h
    rcases hd : ArchCrate.detect os arch with e | c
    · rw [include_path, hd] at h
      cases h
    · rw [include_path, hd] at h
      simp only [Except.ok.injEq] at h
      subst h
      cases c <;> decide

/-- Witness for C9 at the concrete supported pair (linux, x86_64): the
resolved paths differ from the linux-riscv64 crate's paths. -/
theorem c9_witness :
    protoc_bin_path "linux" "x86_64" =
      .ok (archCrateBinPath .Linux_X86_64) ∧
    archCrateBinPath .Linux_X86_64 ≠
      protoc_bin_vendored_linux_riscv64.protoc_bin_path ∧
    include_path_for_arch .Linux_X86_64 ≠
      protoc_bin_vendored_linux_riscv64.include_path :=
  ⟨rfl,
   c9_linux_riscv64_rejected.2.2.2.1 "linux" "x86_64" _ rfl,
   c9_linux_riscv64_rejected.2.2.2.2 "linux" "x86_64" _ rfl⟩

lemma crates_list_sorted (entries : List DirEntry) :
    (crates_list entries).Sorted (fun a b : String => a ≤ b) := by
  unfold crates_list
  have htrans : ∀ a b c : String,
      decide (a ≤ b) = true → decide (b ≤ c) = true →
      decide (a ≤ c) = true := by
    intro a b c hab hbc
    simp only [decide_eq_true_eq] at hab hbc ⊢
    exact le_trans hab hbc
  have htotal : ∀ a b : String, (decide (a ≤ b) || decide (b ≤ a)) = true :=
    fun a b => by simpa using le_total a b
  have h := List.sorted_mergeSort htrans htotal
    ((entries.filter fun e => e.hasCargoToml).map fun e => e.name)
  exact h.imp fun hab => of_decide_eq_true hab

lemma crates_list_perm (l₁ l₂ : List DirEntry) (h : l₁.Perm l₂) :
    (crates_list l₁).Perm (crates_list l₂) := by
  unfold crates_list
  exact (List.mergeSort_perm _ _).trans
    (((h.filter _).map _).trans (List.mergeSort_perm _ _).symm)

/-- C7: `crates_list` returns the discovered units in lexicographic order,
and its output does not depend on the order in which the directory entries
are encountered. -/
theorem c7_crates_list_lexicographic (l₁ l₂ : List DirEntry)
    (h : l₁.Perm l₂) :
    (crates_list l₁).Sorted (fun a b : String => a ≤ b) ∧
    crates_list l₁ = crates_list l₂ :=
  ⟨crates_list_sorted l₁,
   List.eq_of_perm_of_sorted (crates_list_perm l₁ l₂ h)
     (crates_list_sorted l₁) (crates_list_sorted l₂)⟩

/-- Witness for C7 at two concrete listings of the same entries. -/
theorem c7_witness :
    ([{ name := "protoc-bin-vendored", hasCargoToml := true },
      { name := "ci-gen", hasCargoToml := true }] : List DirEntry).Perm
      [{ name := "ci-gen", hasCargoToml := true },
       { name := "protoc-bin-vendored", hasCargoToml := true }] ∧
    ((crates_list [{ name := "protoc-bin-vendored", hasCargoToml := true },
        { name := "ci-gen", hasCargoToml := true }]).Sorted
        (fun a b : String => a ≤ b) ∧
     crates_list [{ name := "protoc-bin-vendored", hasCargoToml := true },
        { name := "ci-gen", hasCargoToml := true }] =
       crates_list [{ name := "ci-gen", hasCargoToml := true },
         { name := "protoc-bin-vendored", hasCargoToml := true }]) :=
  ⟨List.Perm.swap _ _ _,
   c7_crates_list_lexicographic _ _ (List.Perm.swap _ _ _)⟩

lemma mkMatrixJob_steps (entries : List DirEntry) (os : Os)
    (channel : RustToolchain) :
    (mkMatrixJob entries os channel).steps = steps entries os channel := rfl

lemma steps_no_template_test (entries : List DirEntry) (os : Os)
    (channel : RustToolchain) (s : Step) (hs : s ∈ steps entries os channel) :
    isTestStepFor archTemplateName s = false := by
  unfold steps at hs
  rw [List.mem_append] at hs
  rcases hs with hs | hs
  · simp only [List.mem_cons, List.not_mem_nil, or_false] at hs
    rcases hs with rfl | rfl | rfl
    · exact (setup_steps_not_test channel archTemplateName).1
    · exact (setup_steps_not_test channel archTemplateName).2.1
    · exact (setup_steps_not_test channel archTemplateName).2.2
  · obtain ⟨d, hd, rfl⟩ := List.mem_map.mp hs
    have hdt : (d == archTemplateName) = false := by
      have h2 := (List.mem_filter.mp hd).2
      simpa using h2
    rw [isTestStepFor_testStepFor]
    exact hdt

/-- C2 counterexample: on a concrete listing with two buildable units
(besides the excluded template), the generator emits 7 matrix jobs — one per
non-pruned (platform, channel) pair — not one per
(unit × platform × channel) combination, which would be 14. -/
theorem c2_counterexample :
    (matrixJobs sampleEntries).length = 7 ∧
    ((crates_list sampleEntries).filter
        (fun c => !(c == archTemplateName))).length = 2 ∧
    ¬ (matrixJobs sampleEntries).length =
        ((crates_list sampleEntries).filter
          (fun c => !(c == archTemplateName))).length * 7 := by
  have h7 : (matrixJobs sampleEntries).length = 7 := by
    rw [matrixJobs_eq]
    rfl
  have h2 : ((crates_list sampleEntries).filter
      (fun c => !(c == archTemplateName))).length = 2 := by
    rw [crates_list]
    rw [List.Perm.length_eq
      ((List.mergeSort_perm _ _).filter (fun c => !(c == archTemplateName)))]
    decide
  refine ⟨h7, h2, ?_⟩
  rw [h7, h2]
  decide

/-- C2 (amended): the matrix part of the generator's output contains exactly
one job per non-pruned (platform, channel) combination — 7 jobs with the
distinct platform-channel ids below, whatever the discovered units are —
with the per-unit work emitted as one test step per unit inside each job
rather than as separate jobs. -/
theorem c2_one_matrix_job_per_platform_channel (entries : List DirEntry) :
    (matrixJobs entries).map Job.id =
      ["linux-stable", "macos-stable", "windows-stable", "linux-beta",
       "linux-nightly", "macos-nightly", "windows-nightly"] ∧
    (matrixJobs entries).length = 7 := by
  rw [matrixJobs_eq]
  exact ⟨rfl, rfl⟩

/-- C3: after the matrix jobs, the generator appends exactly three fixed
jobs — the documentation build job, the format check job and the lint check
job — in that order. -/
theorem c3_three_fixed_jobs_appended (entries : List DirEntry) :
    (jobs entries).drop 7 =
      [cargo_doc_job, rustfmt_check_job, mega_linter_job] ∧
    (jobs entries).length = (matrixJobs entries).length + 3 ∧
    (∃ s ∈ cargo_doc_job.steps, ∃ a b, s.kind = StepKind.cargoDoc a b) ∧
    (∃ s ∈ rustfmt_check_job.steps, s.kind = StepKind.rustfmtCheck) ∧
    (∃ s ∈ mega_linter_job.steps, s.kind = StepKind.megaLinter) := by
  refine ⟨?_, ?_, ?_, ?_, ?_⟩
  · rw [jobs, matrixJobs_eq]
    rfl
  · simp [jobs]
  · exact ⟨cargo_doc "cargo doc" "", by simp [cargo_doc_job], "cargo doc", "",
      rfl⟩
  · exact ⟨{ kind := .rustfmtCheck }, by simp [rustfmt_check_job], rfl⟩
  · exact ⟨{ kind := .megaLinter }, by simp [mega_linter_job], rfl⟩

/-- C6: every matrix job's step list starts with the cache restore step,
the source checkout step and the toolchain install step, in that order —
none of which is a test step — followed only by test steps. -/
theorem c6_setup_steps_prefix (entries : List DirEntry) (job : Job)
    (hj : job ∈ matrixJobs entries) :
    ∃ channel rest,
      job.steps = cargo_cache :: checkout_sources ::
        rust_install_toolchain channel :: rest ∧
      (∀ c, isTestStepFor c cargo_cache = false ∧
        isTestStepFor c checkout_sources = false ∧
        isTestStepFor c (rust_install_toolchain channel) = false) ∧
      (∀ s ∈ rest, ∃ c, s = testStepFor c) := by
  rw [matrixJobs_eq] at hj
  simp only [List.mem_cons, List.not_mem_nil, or_false] at hj
  rcases hj with rfl | rfl | rfl | rfl | rfl | rfl | rfl <;>
    exact ⟨_, _, rfl, fun c => setup_steps_not_test _ c, fun s hs => by
      obtain ⟨c, _, rfl⟩ := List.mem_map.mp hs
      exact ⟨c, rfl⟩⟩

/-- Witness for C6 at the first matrix job of the sample listing. -/
theorem c6_witness :
    (mkMatrixJob sampleEntries LINUX .Stable) ∈ matrixJobs sampleEntries ∧
    (∃ channel rest,
      (mkMatrixJob sampleEntries LINUX .Stable).steps =
        cargo_cache :: checkout_sources ::
          rust_install_toolchain channel :: rest ∧
      (∀ c, isTestStepFor c cargo_cache = false ∧
        isTestStepFor c checkout_sources = false ∧
        isTestStepFor c (rust_install_toolchain channel) = false) ∧
      (∀ s ∈ rest, ∃ c, s = testStepFor c)) :=
  ⟨by rw [matrixJobs_eq]; exact List.mem_cons_self _ _,
   c6_setup_steps_prefix sampleEntries _
     (by rw [matrixJobs_eq]; exact List.mem_cons_self _ _)⟩

/-- C4: on a listing with distinct entry names, every matrix job contains
exactly one test step per discovered unit other than the excluded
template directory, that step carries the fixed 5 minute timeout, and no
job in the whole output contains a test step for the excluded name. -/
theorem c4_exactly_one_test_step (entries : List DirEntry)
    (hn : (entries.map DirEntry.name).Nodup) :
    (∀ job ∈ matrixJobs entries, ∀ c ∈ crates_list entries,
      c ≠ archTemplateName →
      job.steps.filter (isTestStepFor c) = [testStepFor c]) ∧
    (∀ c, (testStepFor c).timeout_minutes = some 5) ∧
    (∀ job ∈ jobs entries, ∀ s ∈ job.steps,
      isTestStepFor archTemplateName s = false) := by
  have hcn := crates_list_nodup entries hn
  refine ⟨?_, fun c => rfl, ?_⟩
  · intro job hj c hc hct
    rw [matrixJobs_eq] at hj
    simp only [List.mem_cons, List.not_mem_nil, or_false] at hj
    rcases hj with rfl | rfl | rfl | rfl | rfl | rfl | rfl <;>
      rw [mkMatrixJob_steps] <;>
      exact steps_filter_testStep entries _ _ c hcn hc hct
  · intro job hj s hs
    rw [jobs, List.mem_append] at hj
    rcases hj with hj | hj
    · rw [matrixJobs_eq] at hj
      simp only [List.mem_cons, List.not_mem_nil, or_false] at hj
      rcases hj with rfl | rfl | rfl | rfl | rfl | rfl | rfl <;>
        rw [mkMatrixJob_steps] at hs <;>
        exact steps_no_template_test entries _ _ s hs
    · simp only [List.mem_cons, List.not_mem_nil, or_false] at hj
      rcases hj with rfl | rfl | rfl
      · simp only [cargo_doc_job, List.mem_cons, List.not_mem_nil,
          or_false] at hs
        rcases hs with rfl | rfl | rfl | rfl <;> decide
      · simp only [rustfmt_check_job, List.mem_cons, List.not_mem_nil,
          or_false] at hs
        rcases hs with rfl
        decide
      · simp only [mega_linter_job, List.mem_cons, List.not_mem_nil,
          or_false] at hs
        rcases hs with rfl
        decide

/-- Witness for C4 at the sample listing and the unit ci-gen. -/
theorem c4_witness :
    (sampleEntries.map DirEntry.name).Nodup ∧
    (mkMatrixJob sampleEntries LINUX .Stable).steps.filter
        (isTestStepFor "ci-gen") = [testStepFor "ci-gen"] := by
  have h := c4_exactly_one_test_step sampleEntries (by decide)
  refine ⟨by decide, h.1 _ ?_ "ci-gen" ?_ (by decide)⟩
  · rw [matrixJobs_eq]
    exact List.mem_cons_self _ _
  · rw [crates_list, List.mem_mergeSort]
    decide

/-- Witness for the amended C2 at the sample listing. -/
theorem c2_witness :
    (matrixJobs sampleEntries).map Job.id =
      ["linux-stable", "macos-stable", "windows-stable", "linux-beta",
       "linux-nightly", "macos-nightly", "windows-nightly"] ∧
    (matrixJobs sampleEntries).length = 7 :=
  c2_one_matrix_job_per_platform_channel sampleEntries

/-- Witness for C3 at the sample listing. -/
theorem c3_witness :
    (jobs sampleEntries).drop 7 =
      [cargo_doc_job, rustfmt_check_job, mega_linter_job] ∧
    (jobs sampleEntries).length = (matrixJobs sampleEntries).length + 3 ∧
    (∃ s ∈ cargo_doc_job.steps, ∃ a b, s.kind = StepKind.cargoDoc a b) ∧
    (∃ s ∈ rustfmt_check_job.steps, s.kind = StepKind.rustfmtCheck) ∧
    (∃ s ∈ mega_linter_job.steps, s.kind = StepKind.megaLinter) :=
  c3_three_fixed_jobs_appended sampleEntries

/-- Witness for C10 at the concrete pair (linux, powerpc64). -/
theorem c10_witness :
    exceptIsOk (protoc_bin_path "linux" "powerpc64") =
      exceptIsOk (include_path "linux" "powerpc64") ∧
    exceptIsOk (protoc_bin_path "linux" "powerpc64") =
      supportedPair "linux" "powerpc64" ∧
    exceptErr (protoc_bin_path "linux" "powerpc64") =
      exceptErr (include_path "linux" "powerpc64") ∧
    exceptErr (protoc_bin_path "linux" "powerpc64") =
      (if supportedPair "linux" "powerpc64" then none
       else some ⟨"linux", "powerpc64"⟩) :=
  c10_bin_path_iff_include_path "linux" "powerpc64"
